import Mathlib

/-!
Verification of the search relevance and indexing subsystem of the
vdw-server content platform, following `search/search.py`,
`search/views.py` and `pages/signals.py`.

The Python code is shallowly embedded: dictionaries become structures,
Python strings become Lean strings over explicit character lists,
`str.casefold` is modelled by character-wise `Char.toLower`,
`str.strip` by dropping whitespace characters on both ends, and the
MeiliSearch engine plus the Django ORM become explicit parameters
(a list of raw engine hits, a list of stored pages) together with an
operation trace for the calls the code issues against them.
-/

namespace VdwSearch

/-! ## String primitives used by the Python code -/

/-- Model of `str.casefold`: character-wise lower casing. -/
def casefold (s : String) : String := ⟨s.data.map Char.toLower⟩

/-- Model of Python substring membership `needle in hay`. -/
def containsSubstr (hay needle : String) : Bool :=
  hay.data.tails.any (fun t => needle.data.isPrefixOf t)

/-- Model of `str.startswith`. -/
def startsWithStr (s p : String) : Bool := p.data.isPrefixOf s.data

/-- Model of `key.replace('-', ' ')`: the pattern is a single
character, so the replacement is a character map. -/
def normalizeKey (k : String) : String :=
  ⟨k.data.map (fun c => if c = '-' then ' ' else c)⟩

/-- Model of `str.strip`: drop whitespace from both ends. -/
def pyStrip (s : String) : String :=
  ⟨((s.data.dropWhile Char.isWhitespace).reverse.dropWhile Char.isWhitespace).reverse⟩

theorem containsSubstr_iff {hay needle : String} :
    containsSubstr hay needle = true ↔ needle.data <:+: hay.data := by
  unfold containsSubstr
  rw [List.any_eq_true]
  constructor
  · rintro ⟨t, ht, hp⟩
    rw [List.mem_tails] at ht
    rw [List.isPrefixOf_iff_prefix] at hp
    exact List.infix_iff_prefix_suffix.mpr ⟨t, hp, ht⟩
  · intro h
    obtain ⟨t, hp, ht⟩ := List.infix_iff_prefix_suffix.mp h
    exact ⟨t, (List.mem_tails _ _).mpr ht, List.isPrefixOf_iff_prefix.mpr hp⟩

/-- Replacing dashes by spaces cannot destroy an occurrence of a
needle that contains neither a dash nor a space. -/
theorem containsSubstr_normalizeKey {s needle : String}
    (hne : needle.data.map (fun c => if c = '-' then ' ' else c) = needle.data)
    (h : containsSubstr s needle = true) :
    containsSubstr (normalizeKey s) needle = true := by
  rw [containsSubstr_iff] at h ⊢
  have := List.IsInfix.map (fun c => if c = '-' then ' ' else c) h
  rwa [hne] at this

/-! ## Data model

`SearchDoc` models both the documents written to the MeiliSearch index
by `format_page_for_search` and the hit dictionaries the engine returns
(the reranker reads `title`, `tags`, `modified_date`, `id` from them).
`Page` models the Django `Page` ORM object as consumed by the search
code: `modified_date` is the integer unix timestamp
(`int(page.modified_date.timestamp())`) and `created_date` carries the
ISO string `page.created_date.isoformat()` directly. -/

structure SearchTag where
  name : String
  slug : String
deriving DecidableEq, Repr

structure Page where
  pk : Int
  title : String
  slug : String
  content_text : String
  content_html : String
  tags : List SearchTag
  status : String
  created_date : String
  modified_date : Int
deriving DecidableEq, Repr

structure SearchDoc where
  id : Int
  title : String
  slug : String
  content : String
  content_html : String
  tags : List String
  status : String
  created_date : String
  modified_date : Int
  search_priority : Nat
deriving DecidableEq, Repr

/-! ## compute_search_priority (search.py lines 97-121) -/

/-- Embedding of `compute_search_priority`. -/
def compute_search_priority (tag_names tag_slugs : List String) (title : String) : Nat :=
  let tag_names_lower := tag_names.map casefold
  let tag_slugs_lower := tag_slugs.map casefold
  let tag_keys := tag_names_lower ++ tag_slugs_lower
  let normalized_tag_keys := tag_keys.map normalizeKey
  let title_casefold := casefold title
  let has_overview :=
    normalized_tag_keys.any (fun key => containsSubstr key "overview") ||
      containsSubstr title_casefold "overview"
  let has_category := normalized_tag_keys.any (fun key => startsWithStr key "category")
  if has_overview then 3
  else if containsSubstr title_casefold "many studies" ||
      normalized_tag_keys.any (fun key => containsSubstr key "many studies") then 2
  else if has_category then 1
  else 0

/-- Spec side, written from the claim text: the overview signal of the
priority algorithm (tag names and slug forms normalized, or the
case-folded title). -/
def overviewSignal (tag_names tag_slugs : List String) (title : String) : Bool :=
  (tag_names ++ tag_slugs).any
      (fun k => containsSubstr (normalizeKey (casefold k)) "overview") ||
    containsSubstr (casefold title) "overview"

/-- Spec side: the many-studies signal of the priority algorithm. -/
def manyStudiesSignal (tag_names tag_slugs : List String) (title : String) : Bool :=
  containsSubstr (casefold title) "many studies" ||
    (tag_names ++ tag_slugs).any
      (fun k => containsSubstr (normalizeKey (casefold k)) "many studies")

/-- Spec side: the category signal of the priority algorithm. -/
def categorySignal (tag_names tag_slugs : List String) : Bool :=
  (tag_names ++ tag_slugs).any
    (fun k => startsWithStr (normalizeKey (casefold k)) "category")

/-- Spec side: the priority algorithm as the spec words it, strict
precedence overview, then many studies, then category, then nothing. -/
def computeSearchPrioritySpec (tag_names tag_slugs : List String) (title : String) : Nat :=
  if overviewSignal tag_names tag_slugs title then 3
  else if manyStudiesSignal tag_names tag_slugs title then 2
  else if categorySignal tag_names tag_slugs then 1
  else 0

theorem normalizedKeys_eq (tag_names tag_slugs : List String) :
    ((tag_names.map casefold ++ tag_slugs.map casefold).map normalizeKey) =
      (tag_names ++ tag_slugs).map (fun k => normalizeKey (casefold k)) := by
  simp [List.map_append, List.map_map, Function.comp_def]

/-- Claim C1: `compute_search_priority` is a deterministic pure function
returning exactly one of 0, 1, 2, 3, evaluated in strict precedence:
3 on an overview signal from normalized tag keys or the case-folded
title, else 2 on a many-studies signal from the title or a tag key,
else 1 on a category tag key, else 0; an overview signal always wins
over many studies, which wins over category, which wins over nothing. -/
theorem compute_search_priority_matches_spec (tag_names tag_slugs : List String)
    (title : String) :
    compute_search_priority tag_names tag_slugs title =
      computeSearchPrioritySpec tag_names tag_slugs title ∧
    compute_search_priority tag_names tag_slugs title ∈ [0, 1, 2, 3] := by
  have h : compute_search_priority tag_names tag_slugs title =
      computeSearchPrioritySpec tag_names tag_slugs title := by
    simp only [compute_search_priority, computeSearchPrioritySpec, overviewSignal,
      manyStudiesSignal, categorySignal, List.map_append, List.map_map,
      List.any_append, List.any_map, Function.comp_def]
  refine ⟨h, ?_⟩
  rw [h]
  unfold computeSearchPrioritySpec
  split
  · simp
  · split
    · simp
    · split <;> simp

/-! ## A stable descending sort

`list.sort(key=..., reverse=True)` in Python is a stable sort placing
larger keys first.  We model it by insertion into an accumulator: each
element is inserted behind every already-placed element whose key is
greater than or equal to its own, which preserves the incoming order of
equal keys. -/

/-- Sort keys: `(effective_priority, strong_match, modified_date)`
tuples, compared lexicographically. -/
abbrev SortKey := Nat × Nat × Int

/-- Lexicographic greater-or-equal on sort keys. -/
def keyGE (a b : SortKey) : Bool :=
  decide (b.1 < a.1) ||
    (decide (b.1 = a.1) &&
      (decide (b.2.1 < a.2.1) ||
        (decide (b.2.1 = a.2.1) && decide (b.2.2 ≤ a.2.2))))

theorem keyGE_refl (a : SortKey) : keyGE a a = true := by
  simp [keyGE]

theorem keyGE_total (a b : SortKey) : keyGE a b = true ∨ keyGE b a = true := by
  simp only [keyGE, Bool.or_eq_true, Bool.and_eq_true, decide_eq_true_eq]
  omega

theorem keyGE_trans {a b c : SortKey} (hab : keyGE a b = true)
    (hbc : keyGE b c = true) : keyGE a c = true := by
  simp only [keyGE, Bool.or_eq_true, Bool.and_eq_true, decide_eq_true_eq] at hab hbc ⊢
  omega

/-- Insert `x` behind every element of the (descending) accumulator
whose key is at least the key of `x`. -/
def insHit (k : α → SortKey) (x : α) : List α → List α
  | [] => [x]
  | y :: ys => if keyGE (k y) (k x) then y :: insHit k x ys else x :: y :: ys

/-- Stable descending sort by key `k`, processing the list left to
right. -/
def stableSortDescBy (k : α → SortKey) (l : List α) : List α :=
  l.foldl (fun acc x => insHit k x acc) []

theorem insHit_perm (k : α → SortKey) (x : α) (l : List α) :
    List.Perm (insHit k x l) (x :: l) := by
  induction l with
  | nil => exact List.Perm.refl _
  | cons y ys ih =>
    unfold insHit
    split
    · exact ((ih.cons y).trans (List.Perm.swap x y ys))
    · exact List.Perm.refl _

theorem foldl_insHit_perm (k : α → SortKey) :
    ∀ (l acc : List α), List.Perm (l.foldl (fun acc x => insHit k x acc) acc) (acc ++ l) := by
  intro l
  induction l with
  | nil => intro acc; simp
  | cons x xs ih =>
    intro acc
    have h1 : (x :: xs).foldl (fun acc x => insHit k x acc) acc
        = xs.foldl (fun acc x => insHit k x acc) (insHit k x acc) := rfl
    rw [h1]
    have h2 := ih (insHit k x acc)
    have h3 : List.Perm (insHit k x acc ++ xs) ((x :: acc) ++ xs) :=
      (insHit_perm k x acc).append_right xs
    exact (h2.trans h3).trans (List.perm_middle).symm

theorem stableSortDescBy_perm (k : α → SortKey) (l : List α) :
    List.Perm (stableSortDescBy k l) l := foldl_insHit_perm k l []

/-- Descending order with respect to the keys. -/
abbrev KeySorted (k : α → SortKey) (l : List α) : Prop :=
  l.Pairwise (fun a b => keyGE (k a) (k b) = true)

theorem insHit_sorted {k : α → SortKey} {l : List α} (x : α)
    (hl : KeySorted k l) : KeySorted k (insHit k x l) := by
  induction l with
  | nil => exact List.pairwise_singleton _ x
  | cons y ys ih =>
    obtain ⟨hy, hys⟩ := List.pairwise_cons.mp hl
    unfold insHit
    split
    · rename_i hge
      refine List.pairwise_cons.mpr ⟨?_, ih hys⟩
      intro z hz
      have hz' := (insHit_perm k x ys).mem_iff.mp hz
      rcases List.mem_cons.mp hz' with hzx | hzys
      · subst hzx; exact hge
      · exact hy z hzys
    · rename_i hlt
      refine List.pairwise_cons.mpr ⟨?_, List.pairwise_cons.mpr ⟨hy, hys⟩⟩
      intro z hz
      have hxy : keyGE (k x) (k y) = true := by
        rcases keyGE_total (k x) (k y) with h | h
        · exact h
        · exact absurd h hlt
      rcases List.mem_cons.mp hz with hzy | hzys
      · subst hzy; exact hxy
      · exact keyGE_trans hxy (hy z hzys)

theorem foldl_insHit_sorted (k : α → SortKey) :
    ∀ (l acc : List α), KeySorted k acc →
      KeySorted k (l.foldl (fun acc x => insHit k x acc) acc) := by
  intro l
  induction l with
  | nil => intro acc h; exact h
  | cons x xs ih => intro acc h; exact ih _ (insHit_sorted x h)

theorem stableSortDescBy_sorted (k : α → SortKey) (l : List α) :
    KeySorted k (stableSortDescBy k l) :=
  foldl_insHit_sorted k l [] List.Pairwise.nil

theorem insHit_filter_of_eq {k : α → SortKey} {v : SortKey} {x : α} {l : List α}
    (hl : KeySorted k l) (hx : k x = v) :
    (insHit k x l).filter (fun a => decide (k a = v)) =
      l.filter (fun a => decide (k a = v)) ++ [x] := by
  induction l with
  | nil => simp [insHit, hx]
  | cons y ys ih =>
    obtain ⟨hy, hys⟩ := List.pairwise_cons.mp hl
    unfold insHit
    split
    · rw [List.filter_cons, List.filter_cons]
      split <;> simp [ih hys]
    · rename_i hlt
      have hyne : ¬ (k y = v) := by
        intro hkv
        exact hlt (by rw [hkv, ← hx]; exact keyGE_refl (k x))
      have hzs : ∀ z ∈ ys, ¬ (k z = v) := by
        intro z hz hkv
        apply hlt
        have := hy z hz
        rw [hkv, ← hx] at this
        exact this
      have hfilter : (y :: ys).filter (fun a => decide (k a = v)) = [] := by
        rw [List.filter_eq_nil_iff]
        intro z hz
        rcases List.mem_cons.mp hz with h | h
        · subst h; simpa using hyne
        · simpa using hzs z h
      rw [List.filter_cons_of_pos (by simpa using hx), hfilter]
      rfl

theorem insHit_filter_of_ne {k : α → SortKey} {v : SortKey} {x : α} (l : List α)
    (hx : ¬ (k x = v)) :
    (insHit k x l).filter (fun a => decide (k a = v)) =
      l.filter (fun a => decide (k a = v)) := by
  induction l with
  | nil => simp [insHit, hx]
  | cons y ys ih =>
    unfold insHit
    split
    · rw [List.filter_cons, List.filter_cons]
      split <;> simp [ih]
    · rw [List.filter_cons_of_neg (by simpa using hx)]

theorem foldl_insHit_filter (k : α → SortKey) (v : SortKey) :
    ∀ (l acc : List α), KeySorted k acc →
      (l.foldl (fun acc x => insHit k x acc) acc).filter (fun a => decide (k a = v)) =
        acc.filter (fun a => decide (k a = v)) ++ l.filter (fun a => decide (k a = v)) := by
  intro l
  induction l with
  | nil => intro acc _; simp
  | cons x xs ih =>
    intro acc hacc
    have hstep := ih (insHit k x acc) (insHit_sorted x hacc)
    by_cases hx : k x = v
    · rw [List.foldl_cons, hstep, insHit_filter_of_eq hacc hx,
        List.filter_cons_of_pos (by simpa using hx), List.append_assoc]
      rfl
    · rw [List.foldl_cons, hstep, insHit_filter_of_ne acc hx,
        List.filter_cons_of_neg (by simpa using hx)]

/-- Stability: for every key value, the elements carrying that key
appear in the sorted output in their incoming relative order. -/
theorem stableSortDescBy_filter (k : α → SortKey) (v : SortKey) (l : List α) :
    (stableSortDescBy k l).filter (fun a => decide (k a = v)) =
      l.filter (fun a => decide (k a = v)) :=
  foldl_insHit_filter k v l [] List.Pairwise.nil

/-! ## The reranker (search.py lines 131-204) -/

/-- Embedding of `is_overview_hit`. -/
def is_overview_hit (title_casefold : String) (tags_casefold : List String) : Bool :=
  containsSubstr title_casefold "overview" ||
    tags_casefold.any (fun tag => containsSubstr tag "overview")

/-- Embedding of `is_many_studies_hit`; the source consults only the
title. -/
def is_many_studies_hit (title_casefold : String) : Bool :=
  containsSubstr title_casefold "many studies"

/-- Embedding of `is_category_hit`. -/
def is_category_hit (tags_casefold : List String) : Bool :=
  tags_casefold.any (fun tag => startsWithStr tag "category")

/-- The `title_match` / `tag_match` / `strong_match` computation of the
loop body of `sort_hits_by_priority`: a non-empty case-folded query
that occurs in the case-folded title or equals one case-folded tag. -/
def hitStrongMatch (query : String) (hit : SearchDoc) : Nat :=
  let query_casefold := casefold query
  let title_casefold := casefold hit.title
  let tags_casefold := hit.tags.map casefold
  let title_match : Nat :=
    if query_casefold ≠ "" ∧ containsSubstr title_casefold query_casefold = true
    then 1 else 0
  let tag_match : Nat :=
    if query_casefold ≠ "" ∧ tags_casefold.any (fun tag => query_casefold = tag) = true
    then 1 else 0
  if title_match ≠ 0 ∨ tag_match ≠ 0 then 1 else 0

/-- The sort key the loop body of `sort_hits_by_priority` attaches to a
hit: `(_sort_effective_priority, _sort_strong_match,
_sort_modified_date)`. -/
def hitSortKey (query : String) (hit : SearchDoc) : SortKey :=
  let title_casefold := casefold hit.title
  let tags_casefold := hit.tags.map casefold
  let strong_match : Nat := hitStrongMatch query hit
  let has_overview := is_overview_hit title_casefold tags_casefold
  let has_many_studies := is_many_studies_hit title_casefold
  let has_category := is_category_hit tags_casefold
  let effective_priority : Nat :=
    if has_overview = true ∧ strong_match ≠ 0 then 3
    else if has_many_studies = true then 2
    else if has_category = true ∧ strong_match ≠ 0 then 1
    else 0
  (effective_priority, strong_match, hit.modified_date)

/-- Embedding of `sort_hits_by_priority`: a stable descending sort by
the per-hit key (Python `list.sort(key=..., reverse=True)`). -/
def sort_hits_by_priority (hits : List SearchDoc) (query : String) : List SearchDoc :=
  stableSortDescBy (hitSortKey query) hits

/-! Spec-side description of the reranker key, written from the claim
text, with the two corrections the source forces: an empty query never
counts as a strong match, and the many-studies flag of the reranker is
computed from the title alone. -/

/-- Spec side: a hit carries the overview signal when its case-folded
title or one of its case-folded tags contains "overview". -/
def overviewFlagSpec (hit : SearchDoc) : Bool :=
  containsSubstr (casefold hit.title) "overview" ||
    hit.tags.any (fun tag => containsSubstr (casefold tag) "overview")

/-- Spec side (as amended): the reranker's many-studies flag holds when
the case-folded title contains "many studies"; tags are not consulted. -/
def manyStudiesFlagSpec (hit : SearchDoc) : Bool :=
  containsSubstr (casefold hit.title) "many studies"

/-- Spec side: a hit carries the category signal when one of its
case-folded tags starts with "category". -/
def categoryFlagSpec (hit : SearchDoc) : Bool :=
  hit.tags.any (fun tag => startsWithStr (casefold tag) "category")

/-- Spec side (as amended): `strong_match` is 1 when the query is
non-empty and its case-folded form is a substring of the case-folded
title or equals one case-folded tag. -/
def strongMatchSpec (query : String) (hit : SearchDoc) : Nat :=
  if casefold query ≠ "" ∧
      (containsSubstr (casefold hit.title) (casefold query) = true ∨
        casefold query ∈ hit.tags.map casefold)
  then 1 else 0

/-- Spec side: `effective_priority` as the claim words it. -/
def effectivePrioritySpec (query : String) (hit : SearchDoc) : Nat :=
  if overviewFlagSpec hit = true ∧ strongMatchSpec query hit = 1 then 3
  else if manyStudiesFlagSpec hit = true then 2
  else if categoryFlagSpec hit = true ∧ strongMatchSpec query hit = 1 then 1
  else 0

/-- Spec side: the full descending sort key. -/
def specSortKey (query : String) (hit : SearchDoc) : SortKey :=
  (effectivePrioritySpec query hit, strongMatchSpec query hit, hit.modified_date)

theorem any_eq_mem {β : Type _} [DecidableEq β] (q : β) (L : List β) :
    (L.any fun t => q = t) = decide (q ∈ L) := by
  induction L with
  | nil => simp
  | cons a L ih => simp [List.any_cons, ih, List.mem_cons]

theorem hitStrongMatch_eq_spec (query : String) (hit : SearchDoc) :
    hitStrongMatch query hit = strongMatchSpec query hit := by
  simp only [hitStrongMatch, strongMatchSpec]
  by_cases hq : casefold query = ""
  · simp [hq]
  · rw [any_eq_mem (casefold query) (hit.tags.map casefold)]
    by_cases ht : containsSubstr (casefold hit.title) (casefold query) = true
    · simp [hq, ht]
    · by_cases hm : casefold query ∈ hit.tags.map casefold
      · simp [hq, ht, hm]
      · simp [hq, ht, hm]

theorem is_overview_hit_eq_spec (hit : SearchDoc) :
    is_overview_hit (casefold hit.title) (hit.tags.map casefold) =
      overviewFlagSpec hit := by
  simp [is_overview_hit, overviewFlagSpec, List.any_map, Function.comp_def]

theorem is_many_studies_hit_eq_spec (hit : SearchDoc) :
    is_many_studies_hit (casefold hit.title) = manyStudiesFlagSpec hit := rfl

theorem is_category_hit_eq_spec (hit : SearchDoc) :
    is_category_hit (hit.tags.map casefold) = categoryFlagSpec hit := by
  simp [is_category_hit, categoryFlagSpec, List.any_map, Function.comp_def]

theorem strongMatchSpec_zero_or_one (query : String) (hit : SearchDoc) :
    strongMatchSpec query hit = 0 ∨ strongMatchSpec query hit = 1 := by
  unfold strongMatchSpec
  split
  · right; rfl
  · left; rfl

theorem hitSortKey_eq_specSortKey (query : String) (hit : SearchDoc) :
    hitSortKey query hit = specSortKey query hit := by
  simp only [hitSortKey, specSortKey, effectivePrioritySpec]
  rw [hitStrongMatch_eq_spec, is_overview_hit_eq_spec, is_many_studies_hit_eq_spec,
    is_category_hit_eq_spec]
  rcases strongMatchSpec_zero_or_one query hit with h | h
  · simp [h]
  · simp [h]

/-- Claim C2 (amended): for every hit list and query, the reranker
returns the hits stably sorted in descending lexicographic order of
`(effective_priority, strong_match, modified_date)`, where
`strong_match` is 1 exactly when the query is non-empty and its
case-folded form is a substring of the case-folded title or equals one
case-folded tag; equal keys retain their incoming relative order. -/
theorem sort_hits_by_priority_matches_spec (hits : List SearchDoc) (query : String) :
    sort_hits_by_priority hits query = stableSortDescBy (specSortKey query) hits ∧
    KeySorted (specSortKey query) (sort_hits_by_priority hits query) ∧
    List.Perm (sort_hits_by_priority hits query) hits ∧
    ∀ v : SortKey,
      (sort_hits_by_priority hits query).filter
          (fun h => decide (specSortKey query h = v)) =
        hits.filter (fun h => decide (specSortKey query h = v)) := by
  have hk : hitSortKey query = specSortKey query :=
    funext (hitSortKey_eq_specSortKey query)
  unfold sort_hits_by_priority
  rw [hk]
  exact ⟨rfl, stableSortDescBy_sorted _ hits, stableSortDescBy_perm _ hits,
    fun v => stableSortDescBy_filter _ v hits⟩

/-- The claim's literal strong-match rule, with no non-empty-query
requirement: the empty query is a substring of every title. -/
def strongMatchClaimLiteral (query : String) (hit : SearchDoc) : Nat :=
  if containsSubstr (casefold hit.title) (casefold query) = true ∨
      casefold query ∈ hit.tags.map casefold
  then 1 else 0

/-- The claim's literal effective priority built on the literal
strong-match rule. -/
def effectivePriorityClaimLiteral (query : String) (hit : SearchDoc) : Nat :=
  if overviewFlagSpec hit = true ∧ strongMatchClaimLiteral query hit = 1 then 3
  else if manyStudiesFlagSpec hit = true then 2
  else if categoryFlagSpec hit = true ∧ strongMatchClaimLiteral query hit = 1 then 1
  else 0

/-- The claim's literal sort key. -/
def specSortKeyClaimLiteral (query : String) (hit : SearchDoc) : SortKey :=
  (effectivePriorityClaimLiteral query hit, strongMatchClaimLiteral query hit,
    hit.modified_date)

/-- An overview-titled hit with an old timestamp. -/
def cexOverviewDoc : SearchDoc :=
  ⟨1, "overview", "o", "", "", [], "published", "", 0, 3⟩

/-- A plain hit with a recent timestamp. -/
def cexPlainDoc : SearchDoc :=
  ⟨2, "b", "b", "", "", [], "published", "", 5, 0⟩

/-- Counterexample to claim C2 as stated: on the empty query the source
gives every hit `strong_match = 0`, so the overview hit sinks below the
more recent plain hit, while the claim's literal key (under which the
empty query is a substring of every title) puts the overview hit
first. -/
theorem sort_hits_by_priority_empty_query_cex :
    sort_hits_by_priority [cexOverviewDoc, cexPlainDoc] "" =
      [cexPlainDoc, cexOverviewDoc] ∧
    stableSortDescBy (specSortKeyClaimLiteral "") [cexOverviewDoc, cexPlainDoc] =
      [cexOverviewDoc, cexPlainDoc] ∧
    sort_hits_by_priority [cexOverviewDoc, cexPlainDoc] "" ≠
      stableSortDescBy (specSortKeyClaimLiteral "") [cexOverviewDoc, cexPlainDoc] := by
  refine ⟨?_, ?_, ?_⟩ <;> decide

/-- Claim C4 (amended): the reranker's effective priority evaluates the
overview and category flags by the substring rules of the priority
algorithm on the hit's own case-folded title and tags, but its
many-studies flag consults the title only: a "many studies" tag does
not produce the many-studies signal during reranking. -/
theorem reranker_flag_rules (query : String) (hit : SearchDoc) :
    (hitSortKey query hit).1 =
      (if (containsSubstr (casefold hit.title) "overview" ||
            hit.tags.any fun tag => containsSubstr (casefold tag) "overview") = true ∧
          strongMatchSpec query hit = 1 then 3
      else if containsSubstr (casefold hit.title) "many studies" = true then 2
      else if (hit.tags.any fun tag => startsWithStr (casefold tag) "category") = true ∧
          strongMatchSpec query hit = 1 then 1
      else 0) := by
  rw [hitSortKey_eq_specSortKey]
  simp only [specSortKey, effectivePrioritySpec, overviewFlagSpec,
    manyStudiesFlagSpec, categoryFlagSpec]

/-- A hit whose only many-studies signal sits in its tag list. -/
def cexTagManyStudiesDoc : SearchDoc :=
  ⟨3, "x", "x", "", "", ["many studies"], "published", "", 0, 2⟩

/-- A plain, more recently modified hit. -/
def cexRecentPlainDoc : SearchDoc :=
  ⟨4, "p", "p", "", "", [], "published", "", 5, 0⟩

/-- Counterexample to claim C4 as stated: for a hit whose tag list
contains "many studies" but whose title does not, the priority
algorithm's rule fires, yet the reranker's flag is false, so the hit
does not outrank a plain but more recent hit. -/
theorem reranker_many_studies_tag_cex :
    is_many_studies_hit (casefold "x") = false ∧
    (containsSubstr (casefold "x") "many studies" ||
      (["many studies"] : List String).any
        fun tag => containsSubstr (normalizeKey (casefold tag)) "many studies") = true ∧
    sort_hits_by_priority [cexTagManyStudiesDoc, cexRecentPlainDoc] "zzz" =
      [cexRecentPlainDoc, cexTagManyStudiesDoc] := by
  refine ⟨?_, ?_, ?_⟩ <;> decide

/-! ## Overview fallback and document formatting
(search.py lines 207-269) -/

/-- Embedding of `has_overview_query_match`.  The source first checks
that `title` is a string and `tags` a list of strings; the structure
guarantees that, so those guards are identically true here. -/
def has_overview_query_match (hit : SearchDoc) (query_casefold : String) : Bool :=
  let title_casefold := casefold hit.title
  let tags_casefold := hit.tags.map casefold
  if is_overview_hit title_casefold tags_casefold = false then false
  else if query_casefold = "" then false
  else if containsSubstr title_casefold query_casefold then true
  else tags_casefold.any (fun tag => query_casefold = tag)

/-- Embedding of `format_page_for_search`. -/
def format_page_for_search (page : Page) : SearchDoc :=
  let tag_names := page.tags.map (fun tag => tag.name)
  let tag_slugs := page.tags.map (fun tag => tag.slug)
  { id := page.pk
    title := page.title
    slug := page.slug
    content := page.content_text
    content_html := page.content_html
    tags := tag_names
    status := page.status
    created_date := page.created_date
    modified_date := page.modified_date
    search_priority := compute_search_priority tag_names tag_slugs page.title }

/-- Django `icontains`: case-insensitive substring test. -/
def icontains (field needle : String) : Bool :=
  containsSubstr (casefold field) (casefold needle)

/-- Django `iexact`: case-insensitive equality. -/
def iexact (field needle : String) : Bool :=
  casefold field = casefold needle

/-- Recency key used to model `order_by('-modified_date')`. -/
def pageRecencyKey (page : Page) : SortKey := (0, 0, page.modified_date)

/-- Embedding of `fetch_overview_hits`: published pages whose title or
tag names contain "overview" and whose title contains the stripped
query or one of whose tag names equals it case-insensitively, most
recently modified first, capped to `limit`, formatted as search
documents.  The `.distinct()` of the queryset is a no-op here because
the store is a plain list of pages. -/
def fetch_overview_hits (store : List Page) (query : String) (limit : Nat) :
    List SearchDoc :=
  let trimmed := pyStrip query
  if trimmed = "" then []
  else
    let overview_pages :=
      (stableSortDescBy pageRecencyKey
        (store.filter (fun page =>
          page.status = "published" &&
          (icontains page.title "overview" ||
            page.tags.any (fun tag => icontains tag.name "overview")) &&
          (icontains page.title trimmed ||
            page.tags.any (fun tag => iexact tag.name trimmed))))).take limit
    overview_pages.map format_page_for_search

/-! ## Engine protocol and the query service
(search.py lines 333-405, views.py lines 37-83) -/

/-- Outcome of one engine query attempt. -/
inductive EngineResult where
  | ok (hits : List SearchDoc)
  | err (code : String)
deriving DecidableEq, Repr

instance {ε α : Type _} [DecidableEq ε] [DecidableEq α] :
    DecidableEq (Except ε α) := fun x y =>
  match x, y with
  | .ok a, .ok b =>
    if h : a = b then isTrue (by rw [h])
    else isFalse (by intro hc; injection hc; contradiction)
  | .ok _, .error _ => isFalse (by intro hc; exact Except.noConfusion hc)
  | .error _, .ok _ => isFalse (by intro hc; exact Except.noConfusion hc)
  | .error e, .error f =>
    if h : e = f then isTrue (by rw [h])
    else isFalse (by intro hc; injection hc; contradiction)

/-- Trace of the `try/except MeilisearchApiError` block of
`search_pages`: the engine answer actually used plus how many times
`initialize_search_index` ran and how many engine queries were sent. -/
structure RecoveryTrace where
  result : Except String (List SearchDoc)
  initCalls : Nat
  engineCalls : Nat
deriving DecidableEq, Repr

/-- Embedding of the engine call of `search_pages` (lines 371-381):
a first attempt, and on the specific `invalid_search_sort` error code
one reinitialization followed by one retry of the identical query,
whose outcome is final; any other error code propagates at once. -/
def runEngineQueryWithRecovery (first second : EngineResult) : RecoveryTrace :=
  match first with
  | .ok hits => ⟨.ok hits, 0, 1⟩
  | .err code =>
    if code = "invalid_search_sort" then
      match second with
      | .ok hits => ⟨.ok hits, 1, 2⟩
      | .err code2 => ⟨.error code2, 1, 2⟩
    else ⟨.error code, 0, 1⟩

/-- The overview fallback injection step of `search_pages`
(lines 386-397), returning the merged list and whether the content
store was queried. -/
def overviewInjection (store : List Page) (sorted_hits : List SearchDoc)
    (query : String) : List SearchDoc × Bool :=
  let query_casefold := casefold query
  let has_overview_match :=
    sorted_hits.any (fun hit => has_overview_query_match hit query_casefold)
  if has_overview_match then (sorted_hits, false)
  else
    let overview_hits := fetch_overview_hits store query 10
    if overview_hits.isEmpty then (sorted_hits, true)
    else
      (overview_hits ++
        sorted_hits.filter
          (fun hit => !(overview_hits.any (fun o => o.id = hit.id))), true)

/-- The merged, reranked, fallback-injected candidate list of
`search_pages`, before pagination. -/
def merged_reranked (store : List Page) (hits : List SearchDoc) (query : String) :
    List SearchDoc :=
  (overviewInjection store (sort_hits_by_priority hits query) query).1

/-- What a call to `search_pages` produces besides raising. -/
structure SearchResult where
  hits : List SearchDoc
  storeQueried : Bool
  initCalls : Nat
  engineCalls : Nat
deriving DecidableEq, Repr

/-- Embedding of `search_pages`.  The engine is a parameter through the
outcomes of the at most two query attempts; the content store is the
list of stored pages.  A blank query returns the empty response before
the limit/offset assertions run; failed assertions and engine errors
surface as `Except.error`. -/
def search_pages (store : List Page) (first second : EngineResult)
    (query : String) (limit offset : Int) : Except String SearchResult :=
  if pyStrip query = "" then .ok ⟨[], false, 0, 0⟩
  else if limit < 0 ∨ offset < 0 then
    .error "limit and offset must be non-negative integers"
  else
    let trace := runEngineQueryWithRecovery first second
    match trace.result with
    | .error code => .error code
    | .ok hits =>
      let sorted_hits := sort_hits_by_priority hits query
      let merged := overviewInjection store sorted_hits query
      .ok ⟨(merged.1.drop offset.toNat).take limit.toNat, merged.2,
        trace.initCalls, trace.engineCalls⟩

/-- Embedding of the limit/offset handling of the `search_api` view
(views.py lines 56-74): negative values are rejected, `limit` is capped
at 1000, an offset beyond 1000 is rejected, and the limit is clamped so
that `offset + limit` never exceeds 1000.  `none` models the 400
response. -/
def search_api_clamped_params (limit offset : Int) : Option (Int × Int) :=
  if limit < 0 ∨ offset < 0 then none
  else
    let limit := min limit 1000
    if offset > 1000 then none
    else if offset + limit > 1000 then some (1000 - offset, offset)
    else some (limit, offset)

/-! ## Indexer (search.py lines 272-309, signals.py lines 11-28) -/

/-- An engine write issued by the indexer. -/
inductive EngineOp where
  | addDocuments (docs : List SearchDoc)
  | deleteDocument (id : Int)
deriving DecidableEq, Repr

/-- Embedding of `index_page`: non-published pages are skipped, a
published page is formatted and written as one document. -/
def index_page (page : Page) : List EngineOp :=
  if page.status ≠ "published" then []
  else [.addDocuments [format_page_for_search page]]

/-- Embedding of `remove_page_from_search`. -/
def remove_page_from_search (page_id : Int) : List EngineOp :=
  [.deleteDocument page_id]

/-- Embedding of the `post_save` signal handler
`sync_page_to_search_on_save`: published pages are indexed, any other
status triggers removal of the page id from the index.  The
`try/except` around each engine call only logs engine failures and the
recent-pages cache update issues no engine operation. -/
def sync_page_to_search_on_save (page : Page) : List EngineOp :=
  if page.status = "published" then index_page page
  else remove_page_from_search page.pk

/-- The batch size of `bulk_index_pages`. -/
def searchBatchSize : Nat := 100

/-- The loop of `bulk_index_pages`: published pages are formatted and
appended to the current batch; whenever the batch reaches the batch
size it is flushed as one engine write; a non-empty remainder is
flushed after the loop. -/
def bulkAux (batch : List SearchDoc) : List Page → List (List SearchDoc)
  | [] => if batch.isEmpty then [] else [batch]
  | page :: rest =>
    let batch' :=
      if page.status = "published" then batch ++ [format_page_for_search page]
      else batch
    if searchBatchSize ≤ batch'.length then batch' :: bulkAux [] rest
    else bulkAux batch' rest

/-- Embedding of `bulk_index_pages`: the list of `add_documents` calls
issued to the engine, in order. -/
def bulk_index_pages (pages : List Page) : List (List SearchDoc) :=
  bulkAux [] pages

/-- Spec side: splitting a document stream into chunks of the batch
size, the last chunk possibly shorter, no empty chunk. -/
def chunksOfBatchSize (docs : List SearchDoc) : List (List SearchDoc) :=
  if h : docs = [] then []
  else docs.take searchBatchSize :: chunksOfBatchSize (docs.drop searchBatchSize)
termination_by docs.length
decreasing_by
  have : 0 < docs.length := List.length_pos.mpr h
  simp [List.length_drop, searchBatchSize]
  omega

theorem bulkAux_eq_chunks :
    ∀ (pages : List Page) (batch : List SearchDoc),
      batch.length < searchBatchSize →
      bulkAux batch pages =
        chunksOfBatchSize
          (batch ++ (pages.filter (fun page => page.status = "published")).map
            format_page_for_search) := by
  intro pages
  induction pages with
  | nil =>
    intro batch hlt
    simp only [bulkAux, List.filter_nil, List.map_nil, List.append_nil]
    by_cases hb : batch = []
    · subst hb
      rw [chunksOfBatchSize]
      simp
    · rw [chunksOfBatchSize]
      rw [dif_neg hb]
      have ht : batch.take searchBatchSize = batch :=
        List.take_of_length_le (Nat.le_of_lt hlt)
      have hd : batch.drop searchBatchSize = [] :=
        List.drop_eq_nil_of_le (Nat.le_of_lt hlt)
      rw [ht, hd, chunksOfBatchSize]
      simp [hb, List.isEmpty_iff]
  | cons page rest ih =>
    intro batch hlt
    simp only [bulkAux]
    by_cases hpub : page.status = "published"
    · rw [if_pos hpub, List.filter_cons_of_pos (by simp [hpub]), List.map_cons]
      by_cases hflush : searchBatchSize ≤ (batch ++ [format_page_for_search page]).length
      · rw [if_pos hflush]
        have hlen : (batch ++ [format_page_for_search page]).length = searchBatchSize := by
          simp only [List.length_append, List.length_cons, List.length_nil] at hflush ⊢
          omega
        rw [ih [] (by simp [searchBatchSize])]
        simp only [List.nil_append]
        have hne : (batch ++ format_page_for_search page ::
            (rest.filter (fun page => page.status = "published")).map
              format_page_for_search) ≠ [] := by
          intro hcon
          have := congrArg List.length hcon
          simp only [List.length_append, List.length_cons, List.length_nil] at this
          omega
        conv_rhs => rw [chunksOfBatchSize]
        rw [dif_neg hne]
        have hsplit : (batch ++ format_page_for_search page ::
            (rest.filter (fun page => page.status = "published")).map
              format_page_for_search) =
            (batch ++ [format_page_for_search page]) ++
              (rest.filter (fun page => page.status = "published")).map
                format_page_for_search := by
          simp
        rw [hsplit, List.take_left' hlen, List.drop_left' hlen]
      · rw [if_neg hflush]
        have hlen : (batch ++ [format_page_for_search page]).length < searchBatchSize := by
          simp only [List.length_append, List.length_cons, List.length_nil] at hflush ⊢
          omega
        rw [ih _ hlen]
        simp
    · rw [if_neg hpub, List.filter_cons_of_neg (by simp [hpub])]
      have hnoflush : ¬ searchBatchSize ≤ batch.length := by omega
      rw [if_neg hnoflush]
      exact ih batch hlt

/-- A published sample page. -/
def samplePublishedPage : Page :=
  ⟨10, "Vitamin D", "vitamin-d", "body", "<p>body</p>", [⟨"Health", "health"⟩],
    "published", "2024-01-01T00:00:00", 1700000000⟩

/-- A draft sample page. -/
def sampleDraftPage : Page :=
  ⟨11, "Draft page", "draft-page", "body", "<p>body</p>", [],
    "draft", "2024-01-01T00:00:00", 1700000001⟩

/-- Claim C7: bulk reindex filters the entity stream to published
entities, formats them in stream order, flushes a full batch of 100
whenever the accumulator fills and the remainder at stream end, so the
engine write calls are exactly the 100-sized chunks of the published
document stream; in particular 250 published entities yield exactly
three writes of 100, 100 and 50 documents. -/
theorem bulk_index_pages_batches (pages : List Page) :
    bulk_index_pages pages =
      chunksOfBatchSize
        ((pages.filter (fun page => page.status = "published")).map
          format_page_for_search) ∧
    (bulk_index_pages (List.replicate 250 samplePublishedPage)).map List.length =
      [100, 100, 50] := by
  constructor
  · have h := bulkAux_eq_chunks pages [] (by simp [searchBatchSize])
    simpa [bulk_index_pages] using h
  · decide

/-- Claim C8: on save, an entity whose status is not published issues
no document write and exactly one delete of its id, while a published
entity issues exactly one write of one formatted document whose id is
the entity id. -/
theorem sync_on_save_upsert_semantics (page : Page) :
    (page.status ≠ "published" →
      sync_page_to_search_on_save page = [.deleteDocument page.pk]) ∧
    (page.status = "published" →
      sync_page_to_search_on_save page =
          [.addDocuments [format_page_for_search page]] ∧
        (format_page_for_search page).id = page.pk) := by
  constructor
  · intro h
    simp [sync_page_to_search_on_save, remove_page_from_search, h]
  · intro h
    refine ⟨?_, rfl⟩
    simp [sync_page_to_search_on_save, index_page, h]

/-- Witness for claim C8 at a draft page and a published page. -/
theorem sync_on_save_upsert_semantics_witness :
    sync_page_to_search_on_save sampleDraftPage =
        [.deleteDocument sampleDraftPage.pk] ∧
      sync_page_to_search_on_save samplePublishedPage =
        [.addDocuments [format_page_for_search samplePublishedPage]] ∧
      (format_page_for_search samplePublishedPage).id = samplePublishedPage.pk :=
  ⟨(sync_on_save_upsert_semantics sampleDraftPage).1 (by decide),
    (sync_on_save_upsert_semantics samplePublishedPage).2 rfl⟩

/-- Claim C6: a first engine failure with the schema-drift code
`invalid_search_sort` triggers exactly one index reinitialization and
exactly one retry whose outcome, success or failure, is final; a
successful first attempt triggers neither, and any other engine error
propagates with no reinitialization and no retry. -/
theorem engine_recovery_policy (first second : EngineResult) :
    (∀ hits, first = .ok hits →
      runEngineQueryWithRecovery first second = ⟨.ok hits, 0, 1⟩) ∧
    (first = .err "invalid_search_sort" →
      (∀ hits, second = .ok hits →
        runEngineQueryWithRecovery first second = ⟨.ok hits, 1, 2⟩) ∧
      (∀ code2, second = .err code2 →
        runEngineQueryWithRecovery first second = ⟨.error code2, 1, 2⟩)) ∧
    (∀ code, first = .err code → code ≠ "invalid_search_sort" →
      runEngineQueryWithRecovery first second = ⟨.error code, 0, 1⟩) := by
  refine ⟨?_, ?_, ?_⟩
  · intro hits h
    subst h
    rfl
  · intro h
    subst h
    constructor
    · intro hits h2
      subst h2
      rfl
    · intro code2 h2
      subst h2
      rfl
  · intro code h hne
    subst h
    simp [runEngineQueryWithRecovery, hne]

/-- Witness for claim C6 covering all four branches at concrete engine
outcomes. -/
theorem engine_recovery_policy_witness :
    runEngineQueryWithRecovery (.ok [cexPlainDoc]) (.err "other") =
        ⟨.ok [cexPlainDoc], 0, 1⟩ ∧
      runEngineQueryWithRecovery (.err "invalid_search_sort") (.ok []) =
        ⟨.ok [], 1, 2⟩ ∧
      runEngineQueryWithRecovery (.err "invalid_search_sort")
          (.err "invalid_search_sort") = ⟨.error "invalid_search_sort", 1, 2⟩ ∧
      runEngineQueryWithRecovery (.err "index_not_found") (.ok []) =
        ⟨.error "index_not_found", 0, 1⟩ :=
  ⟨(engine_recovery_policy (.ok [cexPlainDoc]) (.err "other")).1 [cexPlainDoc] rfl,
    ((engine_recovery_policy (.err "invalid_search_sort") (.ok [])).2.1 rfl).1 [] rfl,
    ((engine_recovery_policy (.err "invalid_search_sort")
      (.err "invalid_search_sort")).2.1 rfl).2 "invalid_search_sort" rfl,
    (engine_recovery_policy (.err "index_not_found") (.ok [])).2.2
      "index_not_found" rfl (by decide)⟩

/-- Claim C9 (amended): for every query that is non-blank after
stripping, a negative limit or offset makes `search_pages` fail
immediately with the contract-violation error, before any result is
produced; for blank queries the empty response is returned before the
validation runs. -/
theorem search_pages_rejects_negative_params (store : List Page)
    (first second : EngineResult) (query : String) (limit offset : Int)
    (hq : pyStrip query ≠ "") (hneg : limit < 0 ∨ offset < 0) :
    search_pages store first second query limit offset =
      .error "limit and offset must be non-negative integers" := by
  unfold search_pages
  rw [if_neg hq, if_pos hneg]

/-- Witness for claim C9 at a concrete negative limit. -/
theorem search_pages_rejects_negative_params_witness :
    search_pages [] (.ok []) (.ok []) "a" (-1) 0 =
      .error "limit and offset must be non-negative integers" :=
  search_pages_rejects_negative_params [] (.ok []) (.ok []) "a" (-1) 0
    (by decide) (Or.inl (by decide))

/-- Counterexample to claim C9 as stated: with an empty query (and
likewise a whitespace-only query) the blank-query early return runs
before the limit/offset assertions, so a negative limit and offset
produce the empty success response instead of a contract-violation
error. -/
theorem search_pages_blank_query_skips_validation_cex :
    search_pages [] (.ok []) (.ok []) "" (-1) (-1) = .ok ⟨[], false, 0, 0⟩ ∧
      search_pages [] (.ok []) (.ok []) " " (-1) (-1) = .ok ⟨[], false, 0, 0⟩ := by
  constructor
  · rfl
  · decide

/-! ## Claim C3: overview fallback injection -/

/-- Spec side: the entity carries an overview marker in its title or
tag names. -/
def entityHasOverviewMarker (page : Page) : Bool :=
  icontains page.title "overview" ||
    page.tags.any (fun tag => icontains tag.name "overview")

/-- Spec side: the entity's title contains the query or one of its tag
names equals it, case-insensitively. -/
def entityMatchesQuery (page : Page) (q : String) : Bool :=
  icontains page.title q || page.tags.any (fun tag => iexact tag.name q)

/-- Spec side, from the claim text: the direct content-store query of
the overview fallback — published entities carrying the overview
marker and matching the query, most recently modified first, capped to
10, formatted as search documents. -/
def specOverviewStoreQuery (store : List Page) (query : String) : List SearchDoc :=
  ((stableSortDescBy pageRecencyKey
      (store.filter (fun page =>
        page.status = "published" && entityHasOverviewMarker page &&
          entityMatchesQuery page (pyStrip query)))).take 10).map
    format_page_for_search

theorem fetch_overview_hits_eq_spec (store : List Page) (query : String)
    (hq : pyStrip query ≠ "") :
    fetch_overview_hits store query 10 = specOverviewStoreQuery store query := by
  unfold fetch_overview_hits specOverviewStoreQuery
  rw [if_neg hq]
  rfl

theorem all_ne_eq_not_any_eq (ov : List SearchDoc) (hit : SearchDoc) :
    ov.all (fun o => o.id ≠ hit.id) = !(ov.any fun o => o.id = hit.id) := by
  induction ov with
  | nil => rfl
  | cons a l ih =>
    simp only [List.all_cons, List.any_cons, Bool.not_or, decide_not] at ih ⊢
    rw [ih]

/-- Claim C3 (amended): for every query that is non-blank after
stripping, when no reranked engine hit is an overview query match the
service queries the content store for published overview entities
matching the query, newest first, capped to 10, and prepends them to
the reranked hits with id-duplicates of injected documents removed;
when some reranked hit already is an overview query match, the store is
not queried and the reranked hits pass through unchanged. -/
theorem search_pages_overview_fallback (store : List Page)
    (hits : List SearchDoc) (query : String) (limit offset : Int)
    (r : SearchResult) (hq : pyStrip query ≠ "")
    (hr : search_pages store (.ok hits) (.ok hits) query limit offset = .ok r) :
    ((∃ h ∈ sort_hits_by_priority hits query,
        has_overview_query_match h (casefold query) = true) →
      r.storeQueried = false ∧
      r.hits = ((sort_hits_by_priority hits query).drop offset.toNat).take
        limit.toNat) ∧
    ((∀ h ∈ sort_hits_by_priority hits query,
        has_overview_query_match h (casefold query) = false) →
      r.storeQueried = true ∧
      fetch_overview_hits store query 10 = specOverviewStoreQuery store query ∧
      r.hits = (((specOverviewStoreQuery store query ++
          (sort_hits_by_priority hits query).filter
            (fun h => (specOverviewStoreQuery store query).all
              (fun o => o.id ≠ h.id))).drop offset.toNat).take limit.toNat)) := by
  unfold search_pages at hr
  rw [if_neg hq] at hr
  by_cases hneg : limit < 0 ∨ offset < 0
  · rw [if_pos hneg] at hr
    exact absurd hr (by simp)
  · rw [if_neg hneg] at hr
    simp only [runEngineQueryWithRecovery] at hr
    injection hr with hr
    constructor
    · intro ⟨h0, hmem, hmatch⟩
      have hany : (sort_hits_by_priority hits query).any
          (fun hit => has_overview_query_match hit (casefold query)) = true :=
        List.any_eq_true.mpr ⟨h0, hmem, hmatch⟩
      rw [← hr]
      simp [overviewInjection, hany]
    · intro hall
      have hany : (sort_hits_by_priority hits query).any
          (fun hit => has_overview_query_match hit (casefold query)) = false := by
        rw [List.any_eq_false]
        intro h0 hmem
        simp [hall h0 hmem]
      have hfetch := fetch_overview_hits_eq_spec store query hq
      rw [← hr]
      simp only [overviewInjection, hany, Bool.false_eq_true, if_false]
      by_cases hempty : (fetch_overview_hits store query 10).isEmpty
      · rw [if_pos hempty]
        have hnil : fetch_overview_hits store query 10 = [] :=
          List.isEmpty_iff.mp hempty
        have hsnil : specOverviewStoreQuery store query = [] := by
          rw [← hfetch]; exact hnil
        refine ⟨rfl, hfetch, ?_⟩
        rw [hsnil]
        simp [List.all_nil, List.filter_true]
      · rw [if_neg hempty]
        have hbf : (fun h : SearchDoc => (specOverviewStoreQuery store query).all
            (fun o => o.id ≠ h.id)) =
            (fun h : SearchDoc => !((fetch_overview_hits store query 10).any
              (fun o => o.id = h.id))) := by
          funext h
          rw [← hfetch, all_ne_eq_not_any_eq]
        refine ⟨rfl, hfetch, ?_⟩
        rw [hbf, ← hfetch]

/-- A stored published overview page. -/
def cexOverviewPage : Page :=
  ⟨5000, "Vitamin Overview", "vitamin-overview", "body", "<p>body</p>", [],
    "published", "2024-01-01T00:00:00", 0⟩

/-- Counterexample to claim C3 as stated: a whitespace-only query is a
non-empty string, and no reranked engine hit is an overview query match
(there are no hits at all), yet the blank-query early return means the
content store is never queried (`storeQueried = false`,
`engineCalls = 0`) even though it holds a published overview page. -/
theorem search_pages_whitespace_query_no_fallback_cex :
    (" " : String) ≠ "" ∧
    sort_hits_by_priority [] " " = [] ∧
    search_pages [cexOverviewPage] (.ok []) (.ok []) " " 20 0 =
      .ok ⟨[], false, 0, 0⟩ := by
  refine ⟨by decide, rfl, by decide⟩

/-- Witness for claim C3 at a concrete store and query exercising the
injection branch. -/
theorem search_pages_overview_fallback_witness :
    ((∃ h ∈ sort_hits_by_priority [] "vitamin",
        has_overview_query_match h (casefold "vitamin") = true) →
      (⟨[format_page_for_search cexOverviewPage], true, 0, 1⟩ :
          SearchResult).storeQueried = false ∧
      (⟨[format_page_for_search cexOverviewPage], true, 0, 1⟩ :
          SearchResult).hits =
        ((sort_hits_by_priority [] "vitamin").drop (0 : Int).toNat).take
          (20 : Int).toNat) ∧
    ((∀ h ∈ sort_hits_by_priority [] "vitamin",
        has_overview_query_match h (casefold "vitamin") = false) →
      (⟨[format_page_for_search cexOverviewPage], true, 0, 1⟩ :
          SearchResult).storeQueried = true ∧
      fetch_overview_hits [cexOverviewPage] "vitamin" 10 =
        specOverviewStoreQuery [cexOverviewPage] "vitamin" ∧
      (⟨[format_page_for_search cexOverviewPage], true, 0, 1⟩ :
          SearchResult).hits =
        (((specOverviewStoreQuery [cexOverviewPage] "vitamin" ++
            (sort_hits_by_priority [] "vitamin").filter
              (fun h => (specOverviewStoreQuery [cexOverviewPage] "vitamin").all
                (fun o => o.id ≠ h.id))).drop (0 : Int).toNat).take
          (20 : Int).toNat)) :=
  search_pages_overview_fallback [cexOverviewPage] [] "vitamin" 20 0
    ⟨[format_page_for_search cexOverviewPage], true, 0, 1⟩ (by decide) (by decide)

/-! ## Claim C10: the overview fallback returns complete published
documents -/

theorem compute_search_priority_eq_three (tag_names tag_slugs : List String)
    (title : String)
    (h : containsSubstr (casefold title) "overview" = true ∨
      ∃ n ∈ tag_names, containsSubstr (casefold n) "overview" = true) :
    compute_search_priority tag_names tag_slugs title = 3 := by
  simp only [compute_search_priority]
  have hov : (((tag_names.map casefold ++ tag_slugs.map casefold).map
      normalizeKey).any (fun key => containsSubstr key "overview") ||
        containsSubstr (casefold title) "overview") = true := by
    rcases h with ht | ⟨n, hn, hcs⟩
    · rw [Bool.or_eq_true]
      exact Or.inr ht
    · have hmem : normalizeKey (casefold n) ∈
          (tag_names.map casefold ++ tag_slugs.map casefold).map normalizeKey :=
        List.mem_map_of_mem normalizeKey
          (List.mem_append_left _ (List.mem_map_of_mem casefold hn))
      have hc : containsSubstr (normalizeKey (casefold n)) "overview" = true :=
        containsSubstr_normalizeKey (by decide) hcs
      rw [Bool.or_eq_true]
      exact Or.inl (List.any_eq_true.mpr ⟨normalizeKey (casefold n), hmem, hc⟩)
  rw [if_pos hov]

/-- Claim C10: every record the overview fallback fetch returns is the
complete formatted search document of a published page of the store:
status published, search priority 3 (its title or one of its tag names
contains "overview"), id equal to the source page id; and at most 10
records come back under the default limit. -/
theorem fetch_overview_hits_complete_docs (store : List Page) (query : String) :
    (fetch_overview_hits store query 10).length ≤ 10 ∧
    ∀ d ∈ fetch_overview_hits store query 10,
      d.status = "published" ∧ d.search_priority = 3 ∧
      ∃ p ∈ store, p.status = "published" ∧ d = format_page_for_search p ∧
        d.id = p.pk := by
  unfold fetch_overview_hits
  by_cases hq : pyStrip query = ""
  · rw [if_pos hq]
    simp
  · rw [if_neg hq]
    constructor
    · simp only [List.length_map, List.length_take]
      exact Nat.min_le_left _ _
    · intro d hd
      rw [List.mem_map] at hd
      obtain ⟨p, hp, hdp⟩ := hd
      have hp2 : p ∈ stableSortDescBy pageRecencyKey (store.filter _) :=
        List.take_subset 10 _ hp
      have hp3 := (stableSortDescBy_perm pageRecencyKey _).mem_iff.mp hp2
      have hp4 := List.mem_filter.mp hp3
      obtain ⟨hstore, hpred⟩ := hp4
      rw [Bool.and_eq_true, Bool.and_eq_true] at hpred
      obtain ⟨⟨hstat, hmark⟩, _hqm⟩ := hpred
      have hstatus : p.status = "published" := by simpa using hstat
      have hprio : (format_page_for_search p).search_priority = 3 := by
        apply compute_search_priority_eq_three
        rw [Bool.or_eq_true] at hmark
        rcases hmark with htitle | htags
        · left
          have hcf : casefold "overview" = "overview" := by decide
          simpa [icontains, hcf] using htitle
        · right
          rw [List.any_eq_true] at htags
          obtain ⟨t, ht, hic⟩ := htags
          refine ⟨t.name, List.mem_map_of_mem (fun tag => tag.name) ht, ?_⟩
          have hcf : casefold "overview" = "overview" := by decide
          simpa [icontains, hcf] using hic
      subst hdp
      exact ⟨hstatus, hprio, p, hstore, hstatus, rfl, rfl⟩

/-- Witness for claim C10 at a concrete store and query. -/
theorem fetch_overview_hits_complete_docs_witness :
    (fetch_overview_hits [cexOverviewPage] "vitamin" 10).length ≤ 10 ∧
    ((format_page_for_search cexOverviewPage).status = "published" ∧
      (format_page_for_search cexOverviewPage).search_priority = 3 ∧
      ∃ p ∈ [cexOverviewPage], p.status = "published" ∧
        format_page_for_search cexOverviewPage = format_page_for_search p ∧
        (format_page_for_search cexOverviewPage).id = p.pk) :=
  ⟨(fetch_overview_hits_complete_docs [cexOverviewPage] "vitamin").1,
    (fetch_overview_hits_complete_docs [cexOverviewPage] "vitamin").2
      (format_page_for_search cexOverviewPage) (by decide)⟩

/-! ## Claim C5: pagination bounds -/

/-- Claim C5 (amended): the `offset + limit` clamping is performed by
the HTTP API layer (`search_api`), not inside `search_pages`; for
parameters that passed through the API clamping, the page
`search_pages` returns is the slice of the merged, reranked,
fallback-injected list lying entirely within its first 1000
positions. -/
theorem search_api_pagination_within_bound (store : List Page)
    (first second : EngineResult) (hits : List SearchDoc) (query : String)
    (limit offset lim2 off2 : Int) (r : SearchResult)
    (hclamp : search_api_clamped_params limit offset = some (lim2, off2))
    (hres : (runEngineQueryWithRecovery first second).result = .ok hits)
    (hq : pyStrip query ≠ "")
    (hr : search_pages store first second query lim2 off2 = .ok r) :
    off2.toNat + lim2.toNat ≤ 1000 ∧
    r.hits = ((merged_reranked store hits query).take
      (off2.toNat + lim2.toNat)).drop off2.toNat := by
  unfold search_api_clamped_params at hclamp
  by_cases hneg : limit < 0 ∨ offset < 0
  · rw [if_pos hneg] at hclamp
    exact absurd hclamp (by simp)
  · rw [if_neg hneg] at hclamp
    simp only at hclamp
    by_cases hoff : offset > 1000
    · rw [if_pos hoff] at hclamp
      exact absurd hclamp (by simp)
    · rw [if_neg hoff] at hclamp
      have hbound : off2.toNat + lim2.toNat ≤ 1000 ∧ 0 ≤ lim2 ∧ 0 ≤ off2 := by
        by_cases hsum : offset + min limit 1000 > 1000
        · rw [if_pos hsum] at hclamp
          injection hclamp with hpair
          injection hpair with h1 h2
          omega
        · rw [if_neg hsum] at hclamp
          injection hclamp with hpair
          injection hpair with h1 h2
          omega
      obtain ⟨hb, hl2, ho2⟩ := hbound
      refine ⟨hb, ?_⟩
      simp only [search_pages] at hr
      rw [if_neg hq, if_neg (by omega), hres] at hr
      simp only at hr
      injection hr with hr
      rw [← hr]
      simp only [merged_reranked]
      rw [List.take_drop]

/-- Witness for claim C5 at concrete clamped parameters. -/
theorem search_api_pagination_within_bound_witness :
    (0 : Int).toNat + (1000 : Int).toNat ≤ 1000 ∧
    (⟨[], true, 0, 1⟩ : SearchResult).hits =
      ((merged_reranked [] [] "xyz").take
        ((0 : Int).toNat + (1000 : Int).toNat)).drop (0 : Int).toNat :=
  search_api_pagination_within_bound [] (.ok []) (.ok []) [] "xyz" 2000 0 1000 0
    ⟨[], true, 0, 1⟩ (by decide) rfl (by decide) rfl

/-- One of 1000 engine hits with pairwise distinct recency. -/
def cexEngineHit (j : Nat) : SearchDoc :=
  ⟨Int.ofNat j, "t", "s", "", "", [], "published", "", Int.ofNat j, 0⟩

/-- The full 1000-hit engine window. -/
def cexEngineHits : List SearchDoc := (List.range 1000).map cexEngineHit

set_option maxRecDepth 100000 in
set_option maxHeartbeats 2000000 in
/-- Counterexample to claim C5 as stated: `search_pages` itself never
clamps `offset + limit`.  With a full 1000-hit engine window and one
injected overview document the merged list has 1001 entries, and the
call with `offset = 1000`, `limit = 1` (so `offset + limit > 1000`)
returns the document at position 1001 of the merged list instead of an
empty page. -/
theorem search_pages_no_internal_clamp_cex :
    (merged_reranked [cexOverviewPage] cexEngineHits "vitamin").length = 1001 ∧
    search_pages [cexOverviewPage] (.ok cexEngineHits) (.ok cexEngineHits)
        "vitamin" 1 1000 = .ok ⟨[cexEngineHit 0], true, 0, 1⟩ := by
  constructor
  · rfl
  · rfl

end VdwSearch
